import Mathlib

/-!
# xproperty: observable, validated property cells

A shallow embedding of `include/xproperty/xproperty.hpp`.

* `xp.xproperty T` is the value cell `xproperty<T>` (one member, `m_value`).
* An owner is an aggregate of property cells indexed by the field identity
  (the generated type `D##_property`, here an index `P : ι` with decidable
  equality) together with its remaining members.
* The owner's hooks `invoke_validators<P, V>`, `notify` and
  `invoke_observers<P>` are member functions called through `owner()`,
  selected by the field identity `P` (and, for the first, by the type `V` of
  the proposal, which is `const T&` in every call the header makes).  They are
  modelled as
  functions of the owner state that return an `Except` result together with
  the owner state they leave behind; a thrown exception keeps the side
  effects made before the throw.  Hooks with the signatures the header
  prescribes (`const` member functions, lines 83-92, 193-201, 211-225) are
  the sub-family `ConstHooks`.
* Every operation of the descriptor returns an `Exec`: the result of the
  call, the owner state afterwards and the list of hook calls the body made,
  in order.
* Values of the value type are mathematical values: copying or assigning a
  value that already exists does not fail.  Constructing one can fail, see
  `xproperty.ctor_default`.
* `owner()` (lines 152-157) yields the aggregate the field is a member of; the
  operations of the descriptor take that aggregate as an explicit argument,
  and `assign_at` and `operator_call_arg_at` find it from the address of the
  field, as `owner()` does.
-/

namespace xp

/-! ## The value cell (lines 49-71, 231-271) -/

/-- The class template `xproperty<T>`: a single protected member `m_value`. -/
structure xproperty (T : Type) where
  m_value : T

namespace xproperty

variable {T : Type}

/-- The conversion operators `operator reference()` and
`operator const_reference() const` (lines 249-259): `return m_value;`. -/
def operator_reference (p : xproperty T) : T := p.m_value

/-- The accessors `operator()()` (lines 261-271): `return m_value;`. -/
def operator_call (p : xproperty T) : T := p.m_value

end xproperty

/-! ## Owners and hooks -/

/-- An owner aggregate: one property cell per declared field `P : ι`, of value
type `τ P`, and the owner's other members. -/
structure Owner (ι : Type) (τ : ι → Type) (X : Type) where
  cells : (P : ι) → xproperty (τ P)
  rest : X

namespace Owner

variable {ι : Type} {τ : ι → Type} {X : Type}

/-- Reading field `P` of an owner through the descriptor's `operator()()`
(lines 119-127), which forwards to `base_type::operator()()`. -/
def read (o : Owner ι τ X) (P : ι) : τ P := (o.cells P).operator_call

/-- The statement `this->m_value = v;` executed in the cell of field `P`. -/
def store [DecidableEq ι] (o : Owner ι τ X) (P : ι) (v : τ P) : Owner ι τ X :=
  { o with cells := Function.update o.cells P ⟨v⟩ }

end Owner

/-- One call made by a descriptor on its owner. -/
inductive Call (ι : Type) (τ : ι → Type) where
  | invoke_validators (P : ι) (value : τ P)
  | notify (P : ι)
  | invoke_observers (P : ι)

namespace Call

variable {ι : Type} {τ : ι → Type} [DecidableEq ι]

/-- Is the call `invoke_validators<P>(..)`? -/
def isValidate (P : ι) : Call ι τ → Bool
  | .invoke_validators Q _ => decide (Q = P)
  | _ => false

/-- Is the call `notify(P)`? -/
def isNotify (P : ι) : Call ι τ → Bool
  | .notify Q => decide (Q = P)
  | _ => false

/-- Is the call `invoke_observers<P>()`? -/
def isObserve (P : ι) : Call ι τ → Bool
  | .invoke_observers Q => decide (Q = P)
  | _ => false

/-- The field a call is dispatched on. -/
def key : Call ι τ → ι
  | .invoke_validators Q _ => Q
  | .notify Q => Q
  | .invoke_observers Q => Q

end Call

/-- The second template argument `V` of `invoke_validators<P, V>(V&& r)`, as
deduced from the proposal: the value type `T` for an rvalue, `T&` for an
lvalue, `const T&` for a constant lvalue. -/
inductive ProposalType where
  | value
  | ref
  | const_ref
  deriving DecidableEq

/-- The three member templates an owner provides (lines 83-92, 193-201),
dispatched on the field identity `P`, and for `invoke_validators` also on the
type `V` of the proposal.  Each receives the owner (`this`) and returns its
result, or the exception it throws, and the owner it leaves. -/
structure Hooks (ι : Type) (τ : ι → Type) (X E : Type) where
  invoke_validators :
    (P : ι) → ProposalType → Owner ι τ X → τ P → Except E (τ P) × Owner ι τ X
  notify : ι → Owner ι τ X → Except E Unit × Owner ι τ X
  invoke_observers : ι → Owner ι τ X → Except E Unit × Owner ι τ X

/-- Hooks declared as the header prescribes: `const` member functions, which
read the owner and return or throw, and do not write it. -/
structure ConstHooks (ι : Type) (τ : ι → Type) (X E : Type) where
  invoke_validators : (P : ι) → ProposalType → Owner ι τ X → τ P → Except E (τ P)
  notify : ι → Owner ι τ X → Except E Unit
  invoke_observers : ι → Owner ι τ X → Except E Unit

/-- A family of `const` hooks seen as hooks: the owner is left as found. -/
def ConstHooks.toHooks {ι : Type} {τ : ι → Type} {X E : Type}
    (c : ConstHooks ι τ X E) : Hooks ι τ X E where
  invoke_validators := fun P V o v => (c.invoke_validators P V o v, o)
  notify := fun P o => (c.notify P o, o)
  invoke_observers := fun P o => (c.invoke_observers P o, o)

/-- The macro `MAKE_OBSERVED()` (lines 193-201): `notify` and
`invoke_observers` have empty bodies, `invoke_validators` is `return r;`. -/
def MAKE_OBSERVED {ι : Type} {τ : ι → Type} {X E : Type} : Hooks ι τ X E where
  notify := fun _ o => (.ok (), o)
  invoke_observers := fun _ o => (.ok (), o)
  invoke_validators := fun _ _ o r => (.ok r, o)

/-- The macro `XOBSERVE_STATIC(T, O, D)` followed by a body (lines 211-213):
the explicit specialisation of `invoke_observers` for the field `D`, a `const`
member function.  The other fields keep the hooks of `h`. -/
def XOBSERVE_STATIC {ι : Type} {τ : ι → Type} {X E : Type} [DecidableEq ι]
    (h : Hooks ι τ X E) (D : ι) (body : Owner ι τ X → Except E Unit) : Hooks ι τ X E where
  invoke_validators := h.invoke_validators
  notify := h.notify
  invoke_observers := Function.update h.invoke_observers D (fun o => (body o, o))

/-- The macro `XVALIDATE_STATIC(T, O, D, A)` followed by a body (lines
223-225): the explicit specialisation
`O::invoke_validators<O::D##_property, T>(T&& A) const`, for the field `D` and
the proposal type `T` given to the macro.  The other specialisations keep the
hooks of `h`. -/
def XVALIDATE_STATIC {ι : Type} {τ : ι → Type} {X E : Type} [DecidableEq ι]
    (h : Hooks ι τ X E) (T : ProposalType) (D : ι)
    (body : Owner ι τ X → τ D → Except E (τ D)) : Hooks ι τ X E where
  invoke_validators :=
    Function.update h.invoke_validators D
      (Function.update (h.invoke_validators D) T (fun o A => (body o A, o)))
  notify := h.notify
  invoke_observers := h.invoke_observers

/-! ## The descriptor `D##_property` (lines 94-167) -/

/-- What a call on a descriptor did: its result (or the exception that left
it), the owner afterwards, and the hook calls it made, in order. -/
structure Exec (ι : Type) (τ : ι → Type) (X E α : Type) where
  result : Except E α
  owner : Owner ι τ X
  calls : List (Call ι τ)

section descriptor

variable {ι : Type} {τ : ι → Type} {X E : Type} [DecidableEq ι]

/-- The private member `assign` (lines 159-166):
```
this->m_value = owner()->template invoke_validators<D##_property>(value);
owner()->notify(*this);
owner()->template invoke_observers<D##_property>();
return this->m_value;
```
The parameter `value` is a `const value_type&`, so the call of
`invoke_validators` deduces `V = const value_type&`.  The result is a
reference to the cell, read here when the call returns. -/
def assign (h : Hooks ι τ X E) (D : ι) (value : τ D) (o : Owner ι τ X) :
    Exec ι τ X E (τ D) :=
  match h.invoke_validators D .const_ref o value with
  | (.error e, o1) => ⟨.error e, o1, [.invoke_validators D value]⟩
  | (.ok accepted, o1) =>
    let o2 := o1.store D accepted
    match h.notify D o2 with
    | (.error e, o3) => ⟨.error e, o3, [.invoke_validators D value, .notify D]⟩
    | (.ok _, o3) =>
      match h.invoke_observers D o3 with
      | (.error e, o4) =>
        ⟨.error e, o4, [.invoke_validators D value, .notify D, .invoke_observers D]⟩
      | (.ok _, o4) =>
        ⟨.ok (o4.read D), o4, [.invoke_validators D value, .notify D, .invoke_observers D]⟩

/-- The macro argument `lambda_validator` of `XPROPERTY_GENERAL`: a callable
applied to the proposal `rhs`, an lvalue.  It either throws, or returns some
value of type `R` and leaves the proposal in a state of its choice (a callable
taking its argument by mutable reference may overwrite it).  The result pairs
the proposal as left by the call with the value the call returned. -/
abbrev LambdaValidator (E T R : Type) : Type := T → Except E (T × R)

/-- The functor `xtl::identity()`, the pre-validator the three- and
four-argument forms of `XPROPERTY` pass (lines 169-173): it returns its
argument and does not modify it. -/
def xtl_identity {E T : Type} : LambdaValidator E T T := fun t => .ok (t, t)

/-- The assignment operator `operator=` (lines 102-107):
```
lambda_validator(rhs);
return assign(std::forward<V>(rhs));
```
The call of `lambda_validator` is an expression statement: what it returns is
dropped, and `assign` receives `rhs`. -/
def operator_assign {R : Type} (h : Hooks ι τ X E) (D : ι)
    (lambda_validator : LambdaValidator E (τ D) R) (rhs : τ D) (o : Owner ι τ X) :
    Exec ι τ X E (τ D) :=
  match lambda_validator rhs with
  | .error e => ⟨.error e, o, []⟩
  | .ok (rhs1, _) => assign h D rhs1 o

/-- What a fluent call yields: the owner it returns by value and the hook
calls its body made. -/
structure Fluent (ι : Type) (τ : ι → Type) (X : Type) where
  returned : Owner ι τ X
  calls : List (Call ι τ)

/-- The rvalue call operators with one argument (lines 129-139):
```
this->m_value = arg;
return std::move(*owner());
```
The returned owner is move-constructed from the owner after the store; its
members have the values the owner had at that point. -/
def operator_call_arg (D : ι) (arg : τ D) (o : Owner ι τ X) : Fluent ι τ X :=
  ⟨o.store D arg, []⟩

/-- The rvalue call operator with two or more arguments (lines 141-148):
```
this->m_value = typename base_type::value_type(arg1, arg2, args...);
return std::move(*owner());
```
`value_type_ctor` is the constructor of the value type the arguments select. -/
def operator_call_args {A : Type} (D : ι) (value_type_ctor : A → τ D) (args : A)
    (o : Owner ι τ X) : Fluent ι τ X :=
  ⟨o.store D (value_type_ctor args), []⟩

end descriptor

/-! ## Construction (lines 58-60, 94-173, 231-247) -/

/-- How a call of a function with an exception specification ends: it
returns, an exception leaves it, or `std::terminate` is called. -/
inductive Outcome (E α : Type) where
  | returns (a : α)
  | throws (e : E)
  | terminate
  deriving DecidableEq

/-- The operands the header gives to the `noexcept` operator: the static
constant `value` of a type trait. -/
inductive NoexceptOperand where
  | trait_value (value : Bool)

/-- The operator `noexcept(expression)`: `true` when evaluating the operand,
which it does not evaluate, cannot throw.  Reading a constant cannot throw,
whatever the constant is. -/
def noexcept_operator : NoexceptOperand → Bool
  | .trait_value _ => true

/-- Running a body under the exception specification `noexcept(spec)`: an
exception leaving a function whose specification is `true` calls
`std::terminate`. -/
def run_noexcept {E α : Type} (spec : Bool) (body : Except E α) : Outcome E α :=
  match body with
  | .ok a => .returns a
  | .error e => if spec then .terminate else .throws e

namespace xproperty

variable {E T : Type}

/-- The default constructor (lines 58, 231-235),
`xproperty() noexcept(noexcept(std::is_nothrow_constructible<value_type>::value))`
with the initialiser `m_value()`.  `value_init` is what value-initialising a
`T` does. -/
def ctor_default (is_nothrow_constructible : Bool) (value_init : Except E T) :
    Outcome E (xproperty T) :=
  run_noexcept (noexcept_operator (.trait_value is_nothrow_constructible))
    (value_init.map xproperty.mk)

/-- The constructor from a constant reference (lines 59, 243-247),
`noexcept(noexcept(std::is_nothrow_constructible<value_type>::value))` with
the initialiser `m_value(value)`.  `copy_ctor` is the copy constructor of `T`. -/
def ctor_copy (is_nothrow_constructible : Bool) (copy_ctor : T → Except E T) (value : T) :
    Outcome E (xproperty T) :=
  run_noexcept (noexcept_operator (.trait_value is_nothrow_constructible))
    ((copy_ctor value).map xproperty.mk)

/-- The constructor from an rvalue reference (lines 60, 237-241),
`noexcept(noexcept(std::is_nothrow_move_constructible<value_type>::value))`
with the initialiser `m_value(value)`; `value` is a named reference there, so
the copy constructor of `T` is the one selected. -/
def ctor_move (is_nothrow_move_constructible : Bool) (copy_ctor : T → Except E T)
    (value : T) : Outcome E (xproperty T) :=
  run_noexcept (noexcept_operator (.trait_value is_nothrow_move_constructible))
    ((copy_ctor value).map xproperty.mk)

end xproperty

/-- The arguments of the macro `XPROPERTY_GENERAL(T, O, D, DEFAULT_VALUE,
lambda_validator)` (line 94) other than the two types: the name of the field,
the default value and the pre-validator. -/
structure XPROPERTY_GENERAL (E T R : Type) where
  D : String
  DEFAULT_VALUE : T
  lambda_validator : LambdaValidator E T R

/-- The macro `XPROPERTY_NODEFAULT(T, O, D)` (lines 169-170):
`XPROPERTY_GENERAL(T, O, D, T(), xtl::identity())`.  `T_value` is the value
of the expression `T()`. -/
def XPROPERTY_NODEFAULT {E T : Type} (D : String) (T_value : T) : XPROPERTY_GENERAL E T T :=
  ⟨D, T_value, xtl_identity⟩

/-- The macro `XPROPERTY_DEFAULT(T, O, D, V)` (lines 172-173):
`XPROPERTY_GENERAL(T, O, D, V, xtl::identity())`. -/
def XPROPERTY_DEFAULT {E T : Type} (D : String) (V : T) : XPROPERTY_GENERAL E T T :=
  ⟨D, V, xtl_identity⟩

namespace XPROPERTY_GENERAL

variable {E T R : Type}

/-- The static member `name()` (lines 109-112): `return #D;`. -/
def name (d : XPROPERTY_GENERAL E T R) : String := d.D

/-- The member `D` of a newly constructed owner.  The macro ends with
`} D;` (line 167): the member has no initialiser and the generated class
declares no constructor, so the member is default-initialised through the
default constructor of its base `xproperty<T>`.  The body of the macro does
not mention `DEFAULT_VALUE`. -/
def construct (_d : XPROPERTY_GENERAL E T R) (is_nothrow_constructible : Bool)
    (value_init : Except E T) : Outcome E (xproperty T) :=
  xproperty.ctor_default is_nothrow_constructible value_init

end XPROPERTY_GENERAL

/-! ## Reads through the descriptor (lines 62-66, 119-127) -/

section reads

variable {ι : Type} {τ : ι → Type} {X : Type}

/-- The descriptor's accessors `operator()()` (lines 119-127),
`return base_type::operator()();`, on the field `D` of an owner.  They are
`noexcept`, call no hook and leave the owner as it is. -/
def operator_call_void (D : ι) (o : Owner ι τ X) : Exec ι τ X Empty (τ D) :=
  ⟨.ok (o.cells D).operator_call, o, []⟩

/-- The conversion operators the descriptor inherits from `xproperty<T>`
(lines 62-63, 249-259), on the field `D` of an owner. -/
def operator_conversion (D : ι) (o : Owner ι τ X) : Exec ι τ X Empty (τ D) :=
  ⟨.ok (o.cells D).operator_reference, o, []⟩

end reads

/-! ## Owner recovery (lines 114-117, 152-157) -/

section recovery

variable {ι : Type} {τ : ι → Type} {X E : Type} [DecidableEq ι]

/-- Owner objects in memory: the object that starts at an address, if there
is one. -/
abbrev Memory (ι : Type) (τ : ι → Type) (X : Type) : Type := Nat → Option (Owner ι τ X)

/-- The address of the member `D` of the owner that starts at `base`, when
`offset D` is the value of `offset()`, that is `xoffsetof(O, D)` (lines
114-117). -/
def member_address (offset : ι → Nat) (base : Nat) (D : ι) : Nat := base + offset D

/-- The private member `owner()` (lines 152-157):
```
return reinterpret_cast<xp_owner_type*>(reinterpret_cast<char*>(this) - offset());
```
on addresses counted in bytes.  No pointer is formed below address zero. -/
def owner (offset : Nat) (this : Nat) : Option Nat :=
  if offset ≤ this then some (this - offset) else none

/-- The member `assign` run in the descriptor at the address `this`: each
`owner()` in its body denotes the object at `owner (offset D) this`. -/
def assign_at (h : Hooks ι τ X E) (offset : ι → Nat) (mem : Memory ι τ X) (D : ι)
    (this : Nat) (value : τ D) : Option (Exec ι τ X E (τ D)) :=
  match owner (offset D) this with
  | none => none
  | some base => (mem base).map (assign h D value)

/-- The rvalue call operator run in the descriptor at the address `this`: the
owner moved out is the object at `owner (offset D) this`. -/
def operator_call_arg_at (offset : ι → Nat) (mem : Memory ι τ X) (D : ι)
    (this : Nat) (arg : τ D) : Option (Fluent ι τ X) :=
  match owner (offset D) this with
  | none => none
  | some base => (mem base).map (operator_call_arg D arg)

end recovery

/-! ## The plain field of the specification -/

/-- The specification's plain, directly assignable value (section 4.2, "a
field with no customization behaves exactly like a plain, directly-assignable
value"): assigning `v` to the member `F` of an aggregate gives the aggregate
whose `F` is `v` and whose other members are what they were. -/
def spec_plain_assignment {ι : Type} {τ : ι → Type} {X : Type} [DecidableEq ι]
    (o : Owner ι τ X) (F : ι) (v : τ F) : Owner ι τ X where
  cells := fun P => if hP : P = F then ⟨hP ▸ v⟩ else o.cells P
  rest := o.rest

/-! ## Example owners -/

/-- An owner with the single field `()` of type `Int`, whose validation hook
clamps to `[0, 10]` and whose notification hooks do nothing. -/
def clampingOwner : ConstHooks Unit (fun _ => Int) Unit String where
  invoke_validators := fun _ _ _ v => .ok (max 0 (min 10 v))
  notify := fun _ _ => .ok ()
  invoke_observers := fun _ _ => .ok ()

/-- An owner state whose single field holds `5`. -/
def five : Owner Unit (fun _ => Int) Unit := ⟨fun _ => ⟨5⟩, ()⟩

/-- An owner with one `Int` field whose validation hook, written with
`XVALIDATE_STATIC(const int&, O, D, proposal)`, rejects a negative proposal by
throwing and returns any other proposal. -/
def rejectingOwner : Hooks Unit (fun _ => Int) Unit String :=
  XVALIDATE_STATIC MAKE_OBSERVED .const_ref ()
    (fun _ proposal => if proposal < 0 then .error "negative" else .ok proposal)

/-- A state of an owner with two `Int` fields, `false` and `true`, both `0`. -/
def zeros : Owner Bool (fun _ => Int) Unit := ⟨fun _ => ⟨0⟩, ()⟩

/-- A pre-validator that throws on a negative proposal and otherwise leaves
it alone, like `[](const int& v) { if (v < 0) throw ...; }`. -/
def nonnegative_or_throw : LambdaValidator String Int Unit :=
  fun v => if v < 0 then .error "negative" else .ok (v, ())

/-- An owner with one `Int` field whose `invoke_observers`, not a `const`
member function, writes `0` into the field through `operator()()`. -/
def resettingOwner : Hooks Unit (fun _ => Int) Unit String where
  invoke_validators := fun _ _ o r => (.ok r, o)
  notify := fun _ o => (.ok (), o)
  invoke_observers := fun _ o => (.ok (), o.store () 0)

/-- An owner with two `Int` fields whose observer for the field `false`
recomputes the field `true` as twice the field `false`. -/
def doublingOwner : Hooks Bool (fun _ => Int) Unit String where
  invoke_validators := fun _ _ o r => (.ok r, o)
  notify := fun _ o => (.ok (), o)
  invoke_observers := fun P o =>
    if P = false then (.ok (), o.store true (2 * o.read false)) else (.ok (), o)

/-- An owner with one `Int` field whose `notify` throws. -/
def failingNotifyOwner : ConstHooks Unit (fun _ => Int) Unit String where
  invoke_validators := fun _ _ _ r => .ok r
  notify := fun _ _ => .error "notify"
  invoke_observers := fun _ _ => .ok ()

/-- A memory with one owner, `zeros`, at the address `4096`. -/
def oneOwner : Memory Bool (fun _ => Int) Unit :=
  fun a => if a = 4096 then some zeros else none

/-- The layout of the owner with two `Int` fields: offsets `0` and `8`. -/
def twoInts : Bool → Nat := fun P => if P then 8 else 0

/-! ## Lemmas on owners and on `assign` -/

section lemmas

variable {ι : Type} {τ : ι → Type} {X E : Type} [DecidableEq ι]

theorem Owner.read_store_same (o : Owner ι τ X) (P : ι) (v : τ P) :
    (o.store P v).read P = v := by
  simp [Owner.read, Owner.store, xproperty.operator_call]

theorem Owner.read_store_ne (o : Owner ι τ X) {P Q : ι} (hne : Q ≠ P) (v : τ P) :
    (o.store P v).read Q = o.read Q := by
  simp [Owner.read, Owner.store, Function.update_noteq hne]

theorem Owner.rest_store (o : Owner ι τ X) (P : ι) (v : τ P) :
    (o.store P v).rest = o.rest := rfl

/-- The validated assignment with `const` hooks, when the validation hook
returns: the owner afterwards is the owner with the accepted value stored. -/
theorem assign_const_owner (c : ConstHooks ι τ X E) (F : ι) (v accepted : τ F)
    (o : Owner ι τ X) (hv : c.invoke_validators F .const_ref o v = .ok accepted) :
    (assign c.toHooks F v o).owner = o.store F accepted := by
  simp only [assign, ConstHooks.toHooks, hv]
  cases c.notify F (o.store F accepted) <;> simp only []
  cases c.invoke_observers F (o.store F accepted) <;> simp only []

/-- The member `assign` when the validation hook throws. -/
theorem assign_validate_error (h : Hooks ι τ X E) (D : ι) (v : τ D) (o o1 : Owner ι τ X)
    (e : E) (hv : h.invoke_validators D .const_ref o v = (.error e, o1)) :
    assign h D v o = ⟨.error e, o1, [.invoke_validators D v]⟩ := by
  simp only [assign, hv]

/-- The member `assign` when the validation hook returns and `notify` throws. -/
theorem assign_notify_error (h : Hooks ι τ X E) (D : ι) (v accepted : τ D)
    (o o1 o3 : Owner ι τ X) (e : E)
    (hv : h.invoke_validators D .const_ref o v = (.ok accepted, o1))
    (hn : h.notify D (o1.store D accepted) = (.error e, o3)) :
    assign h D v o = ⟨.error e, o3, [.invoke_validators D v, .notify D]⟩ := by
  simp only [assign, hv, hn]

/-- The member `assign` when validation and `notify` return and
`invoke_observers` throws. -/
theorem assign_observe_error (h : Hooks ι τ X E) (D : ι) (v accepted : τ D)
    (o o1 o3 o4 : Owner ι τ X) (u : Unit) (e : E)
    (hv : h.invoke_validators D .const_ref o v = (.ok accepted, o1))
    (hn : h.notify D (o1.store D accepted) = (.ok u, o3))
    (ho : h.invoke_observers D o3 = (.error e, o4)) :
    assign h D v o =
      ⟨.error e, o4, [.invoke_validators D v, .notify D, .invoke_observers D]⟩ := by
  simp only [assign, hv, hn, ho]

/-- The member `assign` when the three hooks return. -/
theorem assign_ok (h : Hooks ι τ X E) (D : ι) (v accepted : τ D)
    (o o1 o3 o4 : Owner ι τ X) (u u2 : Unit)
    (hv : h.invoke_validators D .const_ref o v = (.ok accepted, o1))
    (hn : h.notify D (o1.store D accepted) = (.ok u, o3))
    (ho : h.invoke_observers D o3 = (.ok u2, o4)) :
    assign h D v o =
      ⟨.ok (o4.read D), o4, [.invoke_validators D v, .notify D, .invoke_observers D]⟩ := by
  simp only [assign, hv, hn, ho]

/-- The operator `operator=` when the pre-validator returns: `assign` on the
proposal as the pre-validator left it. -/
theorem operator_assign_pre_ok {R : Type} (h : Hooks ι τ X E) (D : ι)
    (lam : LambdaValidator E (τ D) R) (rhs rhs1 : τ D) (ret : R) (o : Owner ι τ X)
    (hpre : lam rhs = .ok (rhs1, ret)) :
    operator_assign h D lam rhs o = assign h D rhs1 o := by
  simp only [operator_assign, hpre]

/-- The operator `operator=` with the pre-validator `xtl::identity()` is
`assign`. -/
theorem operator_assign_identity (h : Hooks ι τ X E) (D : ι) (rhs : τ D)
    (o : Owner ι τ X) :
    operator_assign h D xtl_identity rhs o = assign h D rhs o := rfl

/-- The validated assignment with any hooks, when the validation hook returns
and neither notification hook writes the field: the field holds the accepted
value afterwards, also when a notification hook throws. -/
theorem assign_read_of_frame (h : Hooks ι τ X E) (F : ι) (v accepted : τ F)
    (o o1 : Owner ι τ X) (hv : h.invoke_validators F .const_ref o v = (.ok accepted, o1))
    (hn : ∀ s : Owner ι τ X, (h.notify F s).2.read F = s.read F)
    (ho : ∀ s : Owner ι τ X, (h.invoke_observers F s).2.read F = s.read F) :
    (assign h F v o).owner.read F = accepted := by
  have hn1 := hn (o1.store F accepted)
  rw [Owner.read_store_same] at hn1
  rcases hnr : h.notify F (o1.store F accepted) with ⟨rn, o3⟩
  rw [hnr] at hn1
  cases rn with
  | error e =>
    rw [assign_notify_error h F v accepted o o1 o3 e hv hnr]
    exact hn1
  | ok u =>
    have ho1 := ho o3
    rcases hor : h.invoke_observers F o3 with ⟨ro, o4⟩
    rw [hor] at ho1
    cases ro with
    | error e =>
      rw [assign_observe_error h F v accepted o o1 o3 o4 u e hv hnr hor]
      exact ho1.trans hn1
    | ok u2 =>
      rw [assign_ok h F v accepted o o1 o3 o4 u u2 hv hnr hor]
      exact ho1.trans hn1

/-- A validation hook written with `XVALIDATE_STATIC` for the proposal type
`const T&` is the one `assign` calls for its field. -/
theorem assign_XVALIDATE_STATIC_const_ref (h : Hooks ι τ X E) (D : ι)
    (body : Owner ι τ X → τ D → Except E (τ D)) (o : Owner ι τ X) (v : τ D) :
    (XVALIDATE_STATIC h .const_ref D body).invoke_validators D .const_ref o v
      = (body o v, o) := by
  simp [XVALIDATE_STATIC]

/-- A validation hook written with `XVALIDATE_STATIC` for another proposal
type than `const T&` is a specialisation `assign` does not call. -/
theorem assign_XVALIDATE_STATIC_other (h : Hooks ι τ X E) (T : ProposalType)
    (hT : T ≠ .const_ref) (D : ι) (body : Owner ι τ X → τ D → Except E (τ D))
    (o : Owner ι τ X) (v : τ D) :
    assign (XVALIDATE_STATIC h T D body) D v o = assign h D v o := by
  have hv : (XVALIDATE_STATIC h T D body).invoke_validators D .const_ref
      = h.invoke_validators D .const_ref := by
    simp [XVALIDATE_STATIC, Function.update_noteq (Ne.symm hT)]
  simp only [assign, hv]
  rfl

/-- The value `assign` returns is the value its field holds when it returns. -/
theorem assign_result_ok (h : Hooks ι τ X E) (D : ι) (v x : τ D) (o : Owner ι τ X)
    (hok : (assign h D v o).result = .ok x) : x = (assign h D v o).owner.read D := by
  rcases hv : h.invoke_validators D .const_ref o v with ⟨rv, o1⟩
  cases rv with
  | error e =>
    rw [assign_validate_error h D v o o1 e hv] at hok
    cases hok
  | ok accepted =>
    rcases hn : h.notify D (o1.store D accepted) with ⟨rn, o3⟩
    cases rn with
    | error e =>
      rw [assign_notify_error h D v accepted o o1 o3 e hv hn] at hok
      cases hok
    | ok u =>
      rcases ho : h.invoke_observers D o3 with ⟨ro, o4⟩
      cases ro with
      | error e =>
        rw [assign_observe_error h D v accepted o o1 o3 o4 u e hv hn ho] at hok
        cases hok
      | ok u2 =>
        rw [assign_ok h D v accepted o o1 o3 o4 u u2 hv hn ho] at hok ⊢
        cases hok
        rfl

/-- The statement `this->m_value = v;` is the plain assignment of the
specification. -/
theorem Owner.store_eq_spec_plain_assignment (o : Owner ι τ X) (F : ι) (v : τ F) :
    o.store F v = spec_plain_assignment o F v := by
  unfold Owner.store spec_plain_assignment
  congr 1
  funext P
  by_cases hP : P = F
  · subst hP
    simp
  · simp [Function.update_noteq hP, hP]

/-- The validated assignment with the hooks of `MAKE_OBSERVED`. -/
theorem assign_MAKE_OBSERVED (D : ι) (v : τ D) (o : Owner ι τ X) :
    assign (MAKE_OBSERVED : Hooks ι τ X E) D v o
      = ⟨.ok ((o.store D v).read D), o.store D v,
          [.invoke_validators D v, .notify D, .invoke_observers D]⟩ :=
  assign_ok MAKE_OBSERVED D v v o o (o.store D v) (o.store D v) () () rfl rfl rfl

end lemmas

/-! ## Validated assignment: what is stored, what is notified -/

section claims_assignment

/-- C1, counterexample. At an owner whose validation hook returns the proposal
and whose observer, not a `const` member function, writes `0` into the field,
the validated assignment `F = 7` with the identity pre-validator leaves `F`
holding `0`, not the value `7` the validation hook returned. -/
theorem C1_observer_overwrites_stored_value :
    (resettingOwner.invoke_validators () .const_ref five 7).1 = .ok 7 ∧
    (operator_assign resettingOwner () xtl_identity 7 five).owner.read () = 0 ∧
    (operator_assign resettingOwner () xtl_identity 7 five).owner.read () ≠ 7 ∧
    ¬ (∀ (h : Hooks Unit (fun _ => Int) Unit String) (v accepted : Int)
          (o o1 : Owner Unit (fun _ => Int) Unit),
        h.invoke_validators () .const_ref o v = (.ok accepted, o1) →
        (operator_assign h () xtl_identity v o).owner.read () = accepted) := by
  refine ⟨rfl, rfl, by decide, ?_⟩
  intro hall
  have h7 := hall resettingOwner 7 7 five five rfl
  revert h7
  decide

/-- C1, amended. With the identity pre-validator, for every owner whose
notification hooks `notify` and `invoke_observers` do not write `F`, as hooks
of the prescribed (`const`) signatures cannot, after the validated assignment
`F = v` the field `F` holds the value the owner's validation hook for `F`
returned for `v`.  In particular, when that hook clamps to a range `[lo, hi]`,
assigning `lo - 1` stores `lo`, assigning `hi + 1` stores `hi`, and assigning a
value inside the range stores it unchanged. -/
theorem C1_assignment_stores_validation_result :
    (∀ (ι : Type) (τ : ι → Type) (X E : Type) [DecidableEq ι]
        (c : ConstHooks ι τ X E) (F : ι) (v accepted : τ F) (o : Owner ι τ X),
        c.invoke_validators F .const_ref o v = .ok accepted →
        (operator_assign c.toHooks F xtl_identity v o).owner.read F = accepted) ∧
    (∀ (ι : Type) (τ : ι → Type) (X E : Type) [DecidableEq ι]
        (c : ConstHooks ι τ X E) (F : ι) [LinearOrderedRing (τ F)] (lo hi : τ F),
        lo ≤ hi →
        (∀ (o : Owner ι τ X) (v : τ F),
          c.invoke_validators F .const_ref o v = .ok (max lo (min hi v))) →
        ∀ o : Owner ι τ X,
          (operator_assign c.toHooks F xtl_identity (lo - 1) o).owner.read F = lo ∧
          (operator_assign c.toHooks F xtl_identity (hi + 1) o).owner.read F = hi ∧
          ∀ v : τ F, lo ≤ v → v ≤ hi →
            (operator_assign c.toHooks F xtl_identity v o).owner.read F = v) ∧
    (∀ (ι : Type) (τ : ι → Type) (X E : Type) [DecidableEq ι]
        (h : Hooks ι τ X E) (F : ι) (v accepted : τ F) (o o1 : Owner ι τ X),
        h.invoke_validators F .const_ref o v = (.ok accepted, o1) →
        (∀ s : Owner ι τ X, (h.notify F s).2.read F = s.read F) →
        (∀ s : Owner ι τ X, (h.invoke_observers F s).2.read F = s.read F) →
        (operator_assign h F xtl_identity v o).owner.read F = accepted) ∧
    (∀ (ι : Type) (τ : ι → Type) (X E : Type) [DecidableEq ι]
        (h : Hooks ι τ X E) (F : ι) [LinearOrderedRing (τ F)] (lo hi : τ F),
        lo ≤ hi →
        (∀ (o : Owner ι τ X) (v : τ F),
          (h.invoke_validators F .const_ref o v).1 = .ok (max lo (min hi v))) →
        (∀ s : Owner ι τ X, (h.notify F s).2.read F = s.read F) →
        (∀ s : Owner ι τ X, (h.invoke_observers F s).2.read F = s.read F) →
        ∀ o : Owner ι τ X,
          (operator_assign h F xtl_identity (lo - 1) o).owner.read F = lo ∧
          (operator_assign h F xtl_identity (hi + 1) o).owner.read F = hi ∧
          ∀ v : τ F, lo ≤ v → v ≤ hi →
            (operator_assign h F xtl_identity v o).owner.read F = v) := by
  have key : ∀ (ι : Type) (τ : ι → Type) (X E : Type) [DecidableEq ι]
      (c : ConstHooks ι τ X E) (F : ι) (v accepted : τ F) (o : Owner ι τ X),
      c.invoke_validators F .const_ref o v = .ok accepted →
      (operator_assign c.toHooks F xtl_identity v o).owner.read F = accepted := by
    intro ι τ X E _ c F v accepted o hv
    simp only [operator_assign, xtl_identity]
    rw [assign_const_owner c F v accepted o hv, Owner.read_store_same]
  have gen : ∀ (ι : Type) (τ : ι → Type) (X E : Type) [DecidableEq ι]
      (h : Hooks ι τ X E) (F : ι) (v accepted : τ F) (o : Owner ι τ X),
      (h.invoke_validators F .const_ref o v).1 = .ok accepted →
      (∀ s : Owner ι τ X, (h.notify F s).2.read F = s.read F) →
      (∀ s : Owner ι τ X, (h.invoke_observers F s).2.read F = s.read F) →
      (operator_assign h F xtl_identity v o).owner.read F = accepted := by
    intro ι τ X E _ h F v accepted o hv hn ho
    rw [operator_assign_identity]
    refine assign_read_of_frame h F v accepted o
      (h.invoke_validators F .const_ref o v).2 ?_ hn ho
    rw [← hv]
  refine ⟨key, ?_, ?_, ?_⟩
  · intro ι τ X E _ c F _ lo hi hle hclamp o
    refine ⟨?_, ?_, ?_⟩
    · rw [key ι τ X E c F _ _ o (hclamp o _)]
      have h0 : lo - 1 ≤ lo := (sub_one_lt lo).le
      rw [min_eq_right (h0.trans hle)]
      exact max_eq_left h0
    · rw [key ι τ X E c F _ _ o (hclamp o _)]
      rw [min_eq_left (lt_add_one hi).le]
      exact max_eq_right hle
    · intro v hlo hhi
      rw [key ι τ X E c F _ _ o (hclamp o _)]
      rw [min_eq_right hhi]
      exact max_eq_right hlo
  · intro ι τ X E _ h F v accepted o o1 hv hn ho
    exact gen ι τ X E h F v accepted o (by rw [hv]) hn ho
  · intro ι τ X E _ h F _ lo hi hle hclamp hn ho o
    refine ⟨?_, ?_, ?_⟩
    · rw [gen ι τ X E h F _ _ o (hclamp o _) hn ho]
      have h0 : lo - 1 ≤ lo := (sub_one_lt lo).le
      rw [min_eq_right (h0.trans hle)]
      exact max_eq_left h0
    · rw [gen ι τ X E h F _ _ o (hclamp o _) hn ho]
      rw [min_eq_left (lt_add_one hi).le]
      exact max_eq_right hle
    · intro v hlo hhi
      rw [gen ι τ X E h F _ _ o (hclamp o _) hn ho]
      rw [min_eq_right hhi]
      exact max_eq_right hlo

/-- C1 amended, at the clamping owner, whose notification hooks are `const`:
`-1` is stored as `0`, `11` as `10`, `7` as `7`. -/
theorem C1_assignment_stores_validation_result_witness :
    (operator_assign clampingOwner.toHooks () xtl_identity (0 - 1) five).owner.read () = 0 ∧
    (operator_assign clampingOwner.toHooks () xtl_identity (10 + 1) five).owner.read () = 10 ∧
    (operator_assign clampingOwner.toHooks () xtl_identity 7 five).owner.read () = 7 ∧
    (operator_assign clampingOwner.toHooks () xtl_identity 3 five).owner.read ()
      = max 0 (min 10 3) := by
  have h := C1_assignment_stores_validation_result.2.1 Unit (fun _ => Int) Unit String
    clampingOwner () 0 10 (by decide) (fun _ _ => rfl) five
  exact ⟨h.1, h.2.1, h.2.2 7 (by decide) (by decide),
    C1_assignment_stores_validation_result.1 Unit (fun _ => Int) Unit String
      clampingOwner () 3 _ five rfl⟩

/-- C2, counterexample. At an owner whose validation hook throws on a negative
proposal, the validated assignment `F = -1` leaves with that exception and has
called neither notification hook: the number of notifications is 0, not 1. -/
theorem C2_no_notification_when_validation_throws :
    (operator_assign rejectingOwner () xtl_identity (-1) five).result = .error "negative" ∧
    (operator_assign rejectingOwner () xtl_identity (-1) five).calls
      = [.invoke_validators () (-1)] ∧
    (operator_assign rejectingOwner () xtl_identity (-1) five).calls.countP
      (Call.isNotify ()) = 0 ∧
    (operator_assign rejectingOwner () xtl_identity (-1) five).calls.countP
      (Call.isObserve ()) = 0 ∧
    ¬ (∀ (h : Hooks Unit (fun _ => Int) Unit String) (v : Int)
          (o : Owner Unit (fun _ => Int) Unit),
        (operator_assign h () xtl_identity v o).calls.countP (Call.isNotify ()) = 1) := by
  refine ⟨rfl, rfl, rfl, rfl, ?_⟩
  intro hall
  have h7 := hall rejectingOwner (-1) five
  revert h7
  decide

/-- C2, amended. Whenever the field's pre-validator and the owner's validation
hook for `F` return, one validated assignment `F = v` calls `notify` for `F`
exactly once, and, when `notify` returns, `invoke_observers<F>` exactly once;
no other field is notified.  The accepted value is not compared with the value
`F` held before: the counts are the same when the two are equal. -/
theorem C2_notification_exactly_once
    {ι : Type} {τ : ι → Type} {X E R : Type} [DecidableEq ι]
    (h : Hooks ι τ X E) (F : ι) (lambda_validator : LambdaValidator E (τ F) R)
    (rhs rhs1 accepted : τ F) (ret : R) (o o1 : Owner ι τ X)
    (hpre : lambda_validator rhs = .ok (rhs1, ret))
    (hval : h.invoke_validators F .const_ref o rhs1 = (.ok accepted, o1)) :
    (operator_assign h F lambda_validator rhs o).calls.countP (Call.isNotify F) = 1 ∧
    ((h.notify F (o1.store F accepted)).1 = .ok () →
      (operator_assign h F lambda_validator rhs o).calls.countP (Call.isObserve F) = 1) ∧
    (∀ G : ι, G ≠ F →
      (operator_assign h F lambda_validator rhs o).calls.countP (Call.isNotify G) = 0 ∧
      (operator_assign h F lambda_validator rhs o).calls.countP (Call.isObserve G) = 0) := by
  rw [operator_assign_pre_ok h F lambda_validator rhs rhs1 ret o hpre]
  rcases hn : h.notify F (o1.store F accepted) with ⟨rn, o3⟩
  cases rn with
  | error e =>
    rw [assign_notify_error h F rhs1 accepted o o1 o3 e hval hn]
    refine ⟨by simp [Call.isNotify], (by intro hc; cases hc), ?_⟩
    intro G hG
    simp [Call.isNotify, Call.isObserve, Ne.symm hG]
  | ok u =>
    rcases ho : h.invoke_observers F o3 with ⟨ro, o4⟩
    cases ro with
    | error e =>
      rw [assign_observe_error h F rhs1 accepted o o1 o3 o4 u e hval hn ho]
      refine ⟨by simp [Call.isNotify], by intro _; simp [Call.isObserve], ?_⟩
      intro G hG
      simp [Call.isNotify, Call.isObserve, Ne.symm hG]
    | ok u2 =>
      rw [assign_ok h F rhs1 accepted o o1 o3 o4 u u2 hval hn ho]
      refine ⟨by simp [Call.isNotify], by intro _; simp [Call.isObserve], ?_⟩
      intro G hG
      simp [Call.isNotify, Call.isObserve, Ne.symm hG]

/-- C2 amended, at an owner with default hooks whose field already holds the
assigned value `5`: both notification hooks are still called once. -/
theorem C2_notification_exactly_once_witness :
    five.read () = 5 ∧
    (operator_assign (MAKE_OBSERVED : Hooks Unit (fun _ => Int) Unit String) ()
      xtl_identity 5 five).calls.countP (Call.isNotify ()) = 1 ∧
    (operator_assign (MAKE_OBSERVED : Hooks Unit (fun _ => Int) Unit String) ()
      xtl_identity 5 five).calls.countP (Call.isObserve ()) = 1 := by
  have h := C2_notification_exactly_once
    (MAKE_OBSERVED : Hooks Unit (fun _ => Int) Unit String) () xtl_identity
    5 5 5 5 five five rfl rfl
  exact ⟨rfl, h.1, h.2.1 rfl⟩

/-! ## Direct (fluent) assignment -/

/-- C3. The direct assignment `o.F(v)` stores exactly `v` in `F`, leaves every
other member of the owner as it was, and calls no hook at all; this is so
whatever the owner's hooks are, in particular when the validation hook for `F`
would have returned a value different from `v`.  The form with several
arguments stores the value constructed from them, again without any call. -/
theorem C3_direct_assignment_stores_unvalidated
    {ι : Type} {τ : ι → Type} {X E A : Type} [DecidableEq ι]
    (h : Hooks ι τ X E) (F : ι) (v : τ F) (o : Owner ι τ X)
    (value_type_ctor : A → τ F) (args : A) :
    (operator_call_arg F v o).returned.read F = v ∧
    (∀ G : ι, G ≠ F → (operator_call_arg F v o).returned.read G = o.read G) ∧
    (operator_call_arg F v o).returned.rest = o.rest ∧
    (operator_call_arg F v o).calls = [] ∧
    (∀ accepted : τ F, (h.invoke_validators F .const_ref o v).1 = .ok accepted → accepted ≠ v →
      (operator_call_arg F v o).returned.read F ≠ accepted) ∧
    (operator_call_args F value_type_ctor args o).returned.read F = value_type_ctor args ∧
    (operator_call_args F value_type_ctor args o).calls = [] := by
  refine ⟨Owner.read_store_same o F v, ?_, rfl, rfl, ?_,
    Owner.read_store_same o F (value_type_ctor args), rfl⟩
  · intro G hG
    exact Owner.read_store_ne o hG v
  · intro accepted _ hne
    show (o.store F v).read F ≠ accepted
    rw [Owner.read_store_same]
    exact fun heq => hne heq.symm

/-- C3 at the clamping owner: `o.F(11)` stores `11`, where the validated
assignment would have stored `10`. -/
theorem C3_direct_assignment_stores_unvalidated_witness :
    (operator_call_arg () (11 : Int) five).returned.read () = 11 ∧
    (operator_assign clampingOwner.toHooks () xtl_identity 11 five).owner.read () = 10 ∧
    (operator_call_arg () (11 : Int) five).calls = [] := by
  have h := C3_direct_assignment_stores_unvalidated clampingOwner.toHooks () (11 : Int) five
    (fun p : Int × Int => p.1 + p.2) (5, 6)
  exact ⟨h.1, by decide, h.2.2.2.1⟩

/-! ## The pre-validator -/

/-- C5, the code at a field declared with an explicit default. The member
declared by `XPROPERTY(int, O, bar, 1)`, in an owner just constructed, holds
the value-initialised `0` and not the default `1`: the macro does not use
its argument `DEFAULT_VALUE`, whatever it is. -/
theorem C5_explicit_default_is_dropped :
    ((XPROPERTY_DEFAULT "bar" (1 : Int) : XPROPERTY_GENERAL String Int Int).construct
        true (.ok 0) = .returns ⟨0⟩) ∧
    ((XPROPERTY_DEFAULT "bar" (1 : Int) : XPROPERTY_GENERAL String Int Int).construct
        true (.ok 0) ≠ .returns ⟨(XPROPERTY_DEFAULT "bar" (1 : Int) :
          XPROPERTY_GENERAL String Int Int).DEFAULT_VALUE⟩) ∧
    (∀ (E T R : Type) (d : XPROPERTY_GENERAL E T R) (b : Bool) (t0 : T),
        d.construct b (.ok t0) = .returns ⟨t0⟩) := by
  refine ⟨rfl, ?_, fun _ _ _ _ _ _ => rfl⟩
  intro heq
  have h2 : (0 : Int) = 1 := by
    have h3 := congrArg (fun r : Outcome String (xproperty Int) =>
      match r with
      | .returns p => p.m_value
      | _ => 0) heq
    exact h3
  exact absurd h2 (by decide)

/-! ## Round trip and errors -/

/-- C6. For an owner with the default validation of `MAKE_OBSERVED` and a
field with the default pre-validator, after `F = v` the read `F()` returns
`v`, for every value `v`; this holds whatever `const` notification hooks the
owner has, and with the plain `MAKE_OBSERVED` hooks the assignment also
returns `v`. -/
theorem C6_assignment_round_trip
    {ι : Type} {τ : ι → Type} {X E : Type} [DecidableEq ι]
    (notify_body observers_body : ι → Owner ι τ X → Except E Unit)
    (F : ι) (v : τ F) (o : Owner ι τ X) :
    ((operator_assign (ConstHooks.toHooks
        ⟨fun _ _ _ r => .ok r, notify_body, observers_body⟩) F xtl_identity v o).owner.cells F
      ).operator_call = v ∧
    ((operator_assign (MAKE_OBSERVED : Hooks ι τ X E) F xtl_identity v o).owner.cells F
      ).operator_call = v ∧
    (operator_assign (MAKE_OBSERVED : Hooks ι τ X E) F xtl_identity v o).result = .ok v := by
  refine ⟨?_, ?_, ?_⟩
  · have h := assign_const_owner (⟨fun _ _ _ r => .ok r, notify_body, observers_body⟩ :
      ConstHooks ι τ X E) F v v o rfl
    rw [operator_assign_identity, h]
    exact Owner.read_store_same o F v
  · rw [operator_assign_identity,
      assign_ok MAKE_OBSERVED F v v o o (o.store F v) (o.store F v) () () rfl rfl rfl]
    exact Owner.read_store_same o F v
  · rw [operator_assign_identity,
      assign_ok MAKE_OBSERVED F v v o o (o.store F v) (o.store F v) () () rfl rfl rfl]
    show Except.ok ((o.store F v).read F) = Except.ok v
    rw [Owner.read_store_same]

/-- C7. With the identity pre-validator, the validated assignment `F = v`
leaves with the exception `e` exactly when one of the hooks it calls throws
`e`: the validation hook, or, the validation hook having returned, `notify`
on the owner after the store, or, `notify` having returned,
`invoke_observers`.  The descriptor throws nothing itself and passes the
exception of the hook on unchanged. -/
theorem C7_assignment_fails_as_the_hook_does
    {ι : Type} {τ : ι → Type} {X E : Type} [DecidableEq ι]
    (h : Hooks ι τ X E) (F : ι) (v : τ F) (o : Owner ι τ X) (e : E) :
    (operator_assign h F xtl_identity v o).result = .error e ↔
      ((h.invoke_validators F .const_ref o v).1 = .error e ∨
        ∃ (accepted : τ F) (o1 : Owner ι τ X),
          h.invoke_validators F .const_ref o v = (.ok accepted, o1) ∧
          ((h.notify F (o1.store F accepted)).1 = .error e ∨
            ∃ (u : Unit) (o3 : Owner ι τ X),
              h.notify F (o1.store F accepted) = (.ok u, o3) ∧
              (h.invoke_observers F o3).1 = .error e)) := by
  rw [operator_assign_identity]
  rcases hv : h.invoke_validators F .const_ref o v with ⟨rv, o1⟩
  cases rv with
  | error e1 =>
    rw [assign_validate_error h F v o o1 e1 hv]
    constructor
    · intro he
      exact Or.inl he
    · rintro (he | ⟨a, o2, habs, _⟩)
      · exact he
      · cases habs
  | ok accepted =>
    rcases hn : h.notify F (o1.store F accepted) with ⟨rn, o3⟩
    cases rn with
    | error e1 =>
      rw [assign_notify_error h F v accepted o o1 o3 e1 hv hn]
      constructor
      · intro he
        refine Or.inr ⟨accepted, o1, rfl, Or.inl ?_⟩
        rw [hn]
        simpa using he
      · rintro (he | ⟨a, o2, heq, hrest⟩)
        · cases he
        · cases heq
          rw [hn] at hrest
          rcases hrest with he | ⟨u, o5, habs, _⟩
          · simpa using he
          · cases habs
    | ok u =>
      rcases ho : h.invoke_observers F o3 with ⟨ro, o4⟩
      cases ro with
      | error e1 =>
        rw [assign_observe_error h F v accepted o o1 o3 o4 u e1 hv hn ho]
        constructor
        · intro he
          refine Or.inr ⟨accepted, o1, rfl, Or.inr ⟨u, o3, hn, ?_⟩⟩
          rw [ho]
          simpa using he
        · rintro (he | ⟨a, o2, heq, hrest⟩)
          · cases he
          · cases heq
            rw [hn] at hrest
            rcases hrest with he | ⟨u1, o5, heq2, he⟩
            · cases he
            · cases heq2
              rw [ho] at he
              simpa using he
      | ok u2 =>
        rw [assign_ok h F v accepted o o1 o3 o4 u u2 hv hn ho]
        constructor
        · intro he
          cases he
        · rintro (he | ⟨a, o2, heq, hrest⟩)
          · cases he
          · cases heq
            rw [hn] at hrest
            rcases hrest with he | ⟨u1, o5, heq2, he⟩
            · cases he
            · cases heq2
              rw [ho] at he
              cases he

/-- C8, the code at a value type whose construction throws. Whatever the
trait `is_nothrow_constructible` says, the exception specification of the
three constructors evaluates to `noexcept(true)`, so an exception `e` thrown
while the value is constructed does not leave the constructor of the cell:
the outcome is `std::terminate`, not the exception `e`. -/
theorem C8_construction_failure_terminates :
    (xproperty.ctor_default false (.error "bad" : Except String Int) = .terminate) ∧
    (xproperty.ctor_default false (.error "bad" : Except String Int) ≠ .throws "bad") ∧
    (∀ (E T : Type) (b : Bool) (e : E) (copy_ctor : T → Except E T) (value : T),
        copy_ctor value = .error e →
        xproperty.ctor_default b (.error e : Except E T) = .terminate ∧
        xproperty.ctor_copy b copy_ctor value = .terminate ∧
        xproperty.ctor_move b copy_ctor value = .terminate) := by
  refine ⟨rfl, by simp [xproperty.ctor_default, run_noexcept, noexcept_operator, Except.map], ?_⟩
  intro E T b e copy_ctor value hc
  refine ⟨rfl, ?_, ?_⟩
  · simp [xproperty.ctor_copy, hc, run_noexcept, noexcept_operator, Except.map]
  · simp [xproperty.ctor_move, hc, run_noexcept, noexcept_operator, Except.map]

/-! ## Independence of fields -/

/-- C9. In an owner whose hooks are those of `MAKE_OBSERVED` with the
validation hook and the observer of a field `A` overridden, the validated
assignment `B = v` to another field `B` returns `v`, stores exactly `v` in
`B`, leaves the rest of the owner as it was, and calls the hooks of `B` only:
no call is dispatched on `A`.  More generally, overriding the hooks of `A`
does not change what an assignment to `B` does. -/
theorem C9_override_of_one_field_leaves_the_other
    {ι : Type} {τ : ι → Type} {X E R : Type} [DecidableEq ι]
    (h : Hooks ι τ X E) (T : ProposalType) (A B : ι) (hAB : A ≠ B)
    (validate_A : Owner ι τ X → τ A → Except E (τ A))
    (observe_A : Owner ι τ X → Except E Unit)
    (lambda_validator : LambdaValidator E (τ B) R)
    (v : τ B) (o : Owner ι τ X) :
    (operator_assign (XVALIDATE_STATIC (XOBSERVE_STATIC MAKE_OBSERVED A observe_A) T A validate_A)
        B xtl_identity v o).result = .ok v ∧
    (operator_assign (XVALIDATE_STATIC (XOBSERVE_STATIC MAKE_OBSERVED A observe_A) T A validate_A)
        B xtl_identity v o).owner = o.store B v ∧
    (operator_assign (XVALIDATE_STATIC (XOBSERVE_STATIC MAKE_OBSERVED A observe_A) T A validate_A)
        B xtl_identity v o).owner.read B = v ∧
    (operator_assign (XVALIDATE_STATIC (XOBSERVE_STATIC MAKE_OBSERVED A observe_A) T A validate_A)
        B xtl_identity v o).calls
      = [.invoke_validators B v, .notify B, .invoke_observers B] ∧
    (∀ call ∈ (operator_assign
        (XVALIDATE_STATIC (XOBSERVE_STATIC MAKE_OBSERVED A observe_A) T A validate_A)
        B xtl_identity v o).calls, call.key ≠ A) ∧
    operator_assign (XVALIDATE_STATIC (XOBSERVE_STATIC h A observe_A) T A validate_A)
        B lambda_validator v o = operator_assign h B lambda_validator v o := by
  have hval : ∀ g : Hooks ι τ X E,
      (XVALIDATE_STATIC (XOBSERVE_STATIC g A observe_A) T A validate_A).invoke_validators B
        = g.invoke_validators B := by
    intro g
    simp [XVALIDATE_STATIC, XOBSERVE_STATIC, Function.update_noteq (Ne.symm hAB)]
  have hnot : ∀ g : Hooks ι τ X E,
      (XVALIDATE_STATIC (XOBSERVE_STATIC g A observe_A) T A validate_A).notify B
        = g.notify B := fun _ => rfl
  have hobs : ∀ g : Hooks ι τ X E,
      (XVALIDATE_STATIC (XOBSERVE_STATIC g A observe_A) T A validate_A).invoke_observers B
        = g.invoke_observers B := by
    intro g
    simp [XVALIDATE_STATIC, XOBSERVE_STATIC, Function.update_noteq (Ne.symm hAB)]
  have hsame : ∀ (g : Hooks ι τ X E) (w : τ B),
      assign (XVALIDATE_STATIC (XOBSERVE_STATIC g A observe_A) T A validate_A) B w o
        = assign g B w o := by
    intro g w
    simp only [assign, hval g, hnot g, hobs g]
  have hdef : assign (MAKE_OBSERVED : Hooks ι τ X E) B v o
      = ⟨.ok ((o.store B v).read B), o.store B v,
          [.invoke_validators B v, .notify B, .invoke_observers B]⟩ :=
    assign_ok MAKE_OBSERVED B v v o o (o.store B v) (o.store B v) () () rfl rfl rfl
  have hrun : operator_assign
      (XVALIDATE_STATIC (XOBSERVE_STATIC MAKE_OBSERVED A observe_A) T A validate_A)
      B xtl_identity v o
      = ⟨.ok ((o.store B v).read B), o.store B v,
          [.invoke_validators B v, .notify B, .invoke_observers B]⟩ := by
    rw [operator_assign_identity, hsame MAKE_OBSERVED v, hdef]
  rw [hrun]
  refine ⟨?_, rfl, Owner.read_store_same o B v, rfl, ?_, ?_⟩
  · show Except.ok ((o.store B v).read B) = Except.ok v
    rw [Owner.read_store_same]
  · intro call hmem
    simp only [List.mem_cons, List.mem_singleton, List.not_mem_nil, or_false] at hmem
    rcases hmem with rfl | rfl | rfl <;> exact Ne.symm hAB
  · simp only [operator_assign]
    cases lambda_validator v with
    | error e => rfl
    | ok p => exact hsame h p.1

/-- C9 at an owner with the fields `false` and `true`, where the hooks of
`false` throw: assigning `7` to `true` stores `7` and calls the hooks of
`true` only. -/
theorem C9_override_of_one_field_leaves_the_other_witness :
    (operator_assign (XVALIDATE_STATIC (XOBSERVE_STATIC
        (MAKE_OBSERVED : Hooks Bool (fun _ => Int) Unit String) false
        (fun _ => .error "observed")) .const_ref false (fun _ _ => .error "rejected"))
        true xtl_identity 7 zeros).owner.read true = 7 ∧
    (operator_assign (XVALIDATE_STATIC (XOBSERVE_STATIC
        (MAKE_OBSERVED : Hooks Bool (fun _ => Int) Unit String) false
        (fun _ => .error "observed")) .const_ref false (fun _ _ => .error "rejected"))
        true xtl_identity 7 zeros).calls
      = [.invoke_validators true 7, .notify true, .invoke_observers true] := by
  have h := C9_override_of_one_field_leaves_the_other
    (MAKE_OBSERVED : Hooks Bool (fun _ => Int) Unit String) .const_ref false true (by decide)
    (fun _ _ => .error "rejected") (fun _ => .error "observed")
    (xtl_identity : LambdaValidator String Int Int) 7 zeros
  exact ⟨h.2.2.1, h.2.2.2.1⟩

/-! ## Fluent chaining -/

/-- C10. For distinct fields `A` and `B` and any owner `o`, in particular one
just constructed, the chained call `o.A(a).B(b)` yields an owner whose `A`
holds `a` and whose `B` holds `b`, whose other members are those of `o`, and
neither call has invoked a hook. -/
theorem C10_fluent_chain
    {ι : Type} {τ : ι → Type} {X : Type} [DecidableEq ι]
    (A B : ι) (hAB : A ≠ B) (a : τ A) (b : τ B) (o : Owner ι τ X) :
    (operator_call_arg B b (operator_call_arg A a o).returned).returned.read A = a ∧
    (operator_call_arg B b (operator_call_arg A a o).returned).returned.read B = b ∧
    (∀ G : ι, G ≠ A → G ≠ B →
      (operator_call_arg B b (operator_call_arg A a o).returned).returned.read G = o.read G) ∧
    (operator_call_arg B b (operator_call_arg A a o).returned).returned.rest = o.rest ∧
    (operator_call_arg A a o).calls
      ++ (operator_call_arg B b (operator_call_arg A a o).returned).calls = [] := by
  refine ⟨?_, ?_, ?_, rfl, rfl⟩
  · show ((o.store A a).store B b).read A = a
    rw [Owner.read_store_ne _ hAB, Owner.read_store_same]
  · exact Owner.read_store_same _ B b
  · intro G hGA hGB
    show ((o.store A a).store B b).read G = o.read G
    rw [Owner.read_store_ne _ hGB, Owner.read_store_ne _ hGA]

/-- C10 at the owner with two `Int` fields: `zeros.false(3).true(4)`. -/
theorem C10_fluent_chain_witness :
    (operator_call_arg true (4 : Int) (operator_call_arg false (3 : Int) zeros).returned
      ).returned.read false = 3 ∧
    (operator_call_arg true (4 : Int) (operator_call_arg false (3 : Int) zeros).returned
      ).returned.read true = 4 ∧
    (operator_call_arg false (3 : Int) zeros).calls
      ++ (operator_call_arg true (4 : Int) (operator_call_arg false (3 : Int) zeros).returned
        ).calls = [] := by
  have h := @C10_fluent_chain Bool (fun _ => Int) Unit _ false true (by decide) 3 4 zeros
  exact ⟨h.1, h.2.1, h.2.2.2.2⟩

end claims_assignment

/-! ## The returned reference, plain fields and reads -/

section claims_reads

/-- C11. When the validated assignment `F = v` returns, the value it returns
is the value a read of `F` gives at that point, through either accessor: the
stored value as it is once the notification hooks have run, whatever the hooks
did to the owner, `F` included. -/
theorem C11_assignment_returns_current_value
    {ι : Type} {τ : ι → Type} {X E R : Type} [DecidableEq ι]
    (h : Hooks ι τ X E) (F : ι) (lambda_validator : LambdaValidator E (τ F) R)
    (rhs x : τ F) (o : Owner ι τ X)
    (hok : (operator_assign h F lambda_validator rhs o).result = .ok x) :
    x = (operator_assign h F lambda_validator rhs o).owner.read F ∧
    (operator_call_void F (operator_assign h F lambda_validator rhs o).owner).result
      = .ok x ∧
    (operator_conversion F (operator_assign h F lambda_validator rhs o).owner).result
      = .ok x := by
  have hx : x = (operator_assign h F lambda_validator rhs o).owner.read F := by
    unfold operator_assign at hok ⊢
    cases hl : lambda_validator rhs with
    | error e =>
      rw [hl] at hok
      cases hok
    | ok p =>
      rw [hl] at hok
      exact assign_result_ok h F p.1 x o hok
  refine ⟨hx, ?_, ?_⟩
  · show Except.ok ((operator_assign h F lambda_validator rhs o).owner.read F) = Except.ok x
    rw [← hx]
  · show Except.ok ((operator_assign h F lambda_validator rhs o).owner.read F) = Except.ok x
    rw [← hx]

/-- C11 at an owner whose observer overwrites the field with `0`: `F = 7`
returns `0`, the value `F` holds afterwards, not the accepted value `7`. -/
theorem C11_assignment_returns_current_value_witness :
    (operator_assign resettingOwner () xtl_identity 7 five).result = .ok 0 ∧
    (0 : Int) = (operator_assign resettingOwner () xtl_identity 7 five).owner.read () := by
  have h := C11_assignment_returns_current_value resettingOwner () xtl_identity 7 0 five rfl
  exact ⟨rfl, h.1⟩

/-- C12. For an owner with the hooks of `MAKE_OBSERVED` only and a field
declared without a pre-validator, the validated assignment `F = v` leaves the
owner that the plain assignment of the specification gives: `F` is `v` and
every other member is what it was.  It is the owner the direct assignment
`F(v)` returns. -/
theorem C12_uncustomised_assignment_is_plain
    {ι : Type} {τ : ι → Type} {X E : Type} [DecidableEq ι]
    (F : ι) (v t0 : τ F) (name : String) (o : Owner ι τ X) :
    (operator_assign (MAKE_OBSERVED : Hooks ι τ X E) F
        (XPROPERTY_NODEFAULT name t0).lambda_validator v o).owner
      = spec_plain_assignment o F v ∧
    (operator_assign (MAKE_OBSERVED : Hooks ι τ X E) F
        (XPROPERTY_DEFAULT name t0).lambda_validator v o).owner
      = spec_plain_assignment o F v ∧
    (operator_assign (MAKE_OBSERVED : Hooks ι τ X E) F xtl_identity v o).owner
      = (operator_call_arg F v o).returned ∧
    (operator_assign (MAKE_OBSERVED : Hooks ι τ X E) F xtl_identity v o).owner.read F = v ∧
    (∀ G : ι, G ≠ F →
      (operator_assign (MAKE_OBSERVED : Hooks ι τ X E) F xtl_identity v o).owner.read G
        = o.read G) ∧
    (operator_assign (MAKE_OBSERVED : Hooks ι τ X E) F xtl_identity v o).owner.rest
      = o.rest ∧
    (operator_assign (MAKE_OBSERVED : Hooks ι τ X E) F xtl_identity v o).result = .ok v := by
  have hrun : operator_assign (MAKE_OBSERVED : Hooks ι τ X E) F xtl_identity v o
      = ⟨.ok ((o.store F v).read F), o.store F v,
          [.invoke_validators F v, .notify F, .invoke_observers F]⟩ := by
    rw [operator_assign_identity, assign_MAKE_OBSERVED]
  have hno : (XPROPERTY_NODEFAULT name t0 : XPROPERTY_GENERAL E (τ F) (τ F)).lambda_validator
      = xtl_identity := rfl
  have hde : (XPROPERTY_DEFAULT name t0 : XPROPERTY_GENERAL E (τ F) (τ F)).lambda_validator
      = xtl_identity := rfl
  rw [hno, hde, hrun]
  refine ⟨Owner.store_eq_spec_plain_assignment o F v,
    Owner.store_eq_spec_plain_assignment o F v, rfl, Owner.read_store_same o F v, ?_, rfl, ?_⟩
  · intro G hG
    exact Owner.read_store_ne o hG v
  · show Except.ok ((o.store F v).read F) = Except.ok v
    rw [Owner.read_store_same]

/-- C13. For every cell, the conversion operator and the accessor `operator()()`
return the same value, the stored `m_value`; through the descriptor, on every
owner state, in particular the one before and the one after any validated or
direct assignment, both reads return the stored value, leave the owner as it
is and call no hook. -/
theorem C13_reads_agree
    {ι : Type} {τ : ι → Type} {X E R T : Type} [DecidableEq ι]
    (p : xproperty T) (h : Hooks ι τ X E) (D F : ι)
    (lambda_validator : LambdaValidator E (τ F) R) (rhs : τ F) (o : Owner ι τ X) :
    p.operator_reference = p.operator_call ∧
    p.operator_call = p.m_value ∧
    (operator_conversion D o).result = (operator_call_void D o).result ∧
    (operator_call_void D o).result = .ok (o.cells D).m_value ∧
    (operator_conversion D o).owner = o ∧
    (operator_call_void D o).owner = o ∧
    (operator_conversion D o).calls = [] ∧
    (operator_call_void D o).calls = [] ∧
    (operator_conversion D (operator_assign h F lambda_validator rhs o).owner).result
      = (operator_call_void D (operator_assign h F lambda_validator rhs o).owner).result ∧
    (operator_conversion D (operator_call_arg F rhs o).returned).result
      = (operator_call_void D (operator_call_arg F rhs o).returned).result :=
  ⟨rfl, rfl, rfl, rfl, rfl, rfl, rfl, rfl, rfl, rfl⟩

/-- C14. A field declared without a default value, `XPROPERTY(T, O, D)`, holds
in a newly constructed owner the value-initialised value of `T`. -/
theorem C14_no_default_is_value_initialised
    {E T : Type} (name : String) (t0 : T) (is_nothrow_constructible : Bool) :
    (XPROPERTY_NODEFAULT name t0 : XPROPERTY_GENERAL E T T).construct
        is_nothrow_constructible (.ok t0) = .returns ⟨t0⟩ ∧
    (∀ p : xproperty T,
      (XPROPERTY_NODEFAULT name t0 : XPROPERTY_GENERAL E T T).construct
        is_nothrow_constructible (.ok t0) = .returns p →
      p.operator_call = t0 ∧ p.operator_reference = t0) := by
  refine ⟨rfl, ?_⟩
  intro p hp
  have hp2 : (Outcome.returns ⟨t0⟩ : Outcome E (xproperty T)) = .returns p := hp
  cases hp2
  exact ⟨rfl, rfl⟩

end claims_reads

/-! ## Order of the hooks, rejection, owner recovery -/

section claims_order

/-- C15. In a validated assignment whose validation hook returns, `notify` is
called on the owner after the store, where `F` already holds the accepted
value: `assign` consults `notify` at that state and at no other, and consults
`invoke_observers` at the state `notify` left, where `F` is still the accepted
value when `notify` does not write it.  So an observer that recomputes a field
`G` from `F` computes it from the accepted value. -/
theorem C15_notification_after_store
    {ι : Type} {τ : ι → Type} {X E : Type} [DecidableEq ι]
    (h : Hooks ι τ X E) (F G : ι) (hGF : G ≠ F) (f : τ F → τ G)
    (v accepted : τ F) (o o1 : Owner ι τ X)
    (hv : h.invoke_validators F .const_ref o v = (.ok accepted, o1)) :
    (o1.store F accepted).read F = accepted ∧
    (∀ h2 : Hooks ι τ X E, h2.invoke_validators = h.invoke_validators →
      h2.invoke_observers = h.invoke_observers →
      h2.notify F (o1.store F accepted) = h.notify F (o1.store F accepted) →
      assign h2 F v o = assign h F v o) ∧
    (∀ (u : Unit) (o3 : Owner ι τ X), h.notify F (o1.store F accepted) = (.ok u, o3) →
      ((∀ s : Owner ι τ X, (h.notify F s).2.read F = s.read F) → o3.read F = accepted) ∧
      ∀ h2 : Hooks ι τ X E, h2.invoke_validators = h.invoke_validators →
        h2.notify = h.notify → h2.invoke_observers F o3 = h.invoke_observers F o3 →
        assign h2 F v o = assign h F v o) ∧
    (h.notify F = (fun s => (.ok (), s)) →
      h.invoke_observers F = (fun s => (.ok (), s.store G (f (s.read F)))) →
      (operator_assign h F xtl_identity v o).owner.read G = f accepted ∧
      (operator_assign h F xtl_identity v o).owner.read F = accepted) := by
  refine ⟨Owner.read_store_same o1 F accepted, ?_, ?_, ?_⟩
  · intro h2 hvs hobs hn
    simp only [assign, hvs, hv, hn, hobs]
  · intro u o3 hn
    refine ⟨?_, ?_⟩
    · intro hframe
      have h1 := hframe (o1.store F accepted)
      rw [hn, Owner.read_store_same] at h1
      exact h1
    · intro h2 hvs hns hobs
      simp only [assign, hvs, hv, hns, hn, hobs]
  · intro hn hobs
    have hn1 : h.notify F (o1.store F accepted) = (.ok (), o1.store F accepted) := by
      rw [hn]
    have ho1 : h.invoke_observers F (o1.store F accepted)
        = (.ok (), (o1.store F accepted).store G (f ((o1.store F accepted).read F))) := by
      rw [hobs]
    rw [operator_assign_identity,
      assign_ok h F v accepted o o1 _ _ () () hv hn1 ho1]
    refine ⟨?_, ?_⟩
    · show ((o1.store F accepted).store G (f ((o1.store F accepted).read F))).read G
        = f accepted
      rw [Owner.read_store_same, Owner.read_store_same]
    · show ((o1.store F accepted).store G (f ((o1.store F accepted).read F))).read F
        = accepted
      rw [Owner.read_store_ne _ (Ne.symm hGF), Owner.read_store_same]

/-- C15 at the owner whose observer doubles: after `false = 3` the field `true`
is `6`, computed from the new value `3` and not from the old value `0`. -/
theorem C15_notification_after_store_witness :
    zeros.read false = 0 ∧
    (operator_assign doublingOwner false xtl_identity 3 zeros).owner.read true = 6 ∧
    (operator_assign doublingOwner false xtl_identity 3 zeros).owner.read false = 3 := by
  have h := C15_notification_after_store doublingOwner false true (by decide)
    (fun x : Int => 2 * x) 3 3 zeros zeros rfl
  have h4 := h.2.2.2 rfl (by funext s; simp [doublingOwner])
  exact ⟨rfl, h4.1, h4.2⟩

/-- C17. A validated assignment that returns has called, in this order and
once each, `invoke_validators<F>` on the proposal, `notify(F)` and
`invoke_observers<F>`, and nothing else.  When the validation hook returns and
`notify(F)` throws, the assignment leaves with that exception after the calls
of `invoke_validators<F>` and `notify(F)` only: `invoke_observers<F>` is not
called, the owner is the one `notify` left, and `F` holds the accepted value
in it when `notify` does not write `F`. -/
theorem C17_hook_order
    {ι : Type} {τ : ι → Type} {X E R : Type} [DecidableEq ι]
    (h : Hooks ι τ X E) (F : ι) (lambda_validator : LambdaValidator E (τ F) R)
    (rhs rhs1 : τ F) (ret : R) (o : Owner ι τ X)
    (hpre : lambda_validator rhs = .ok (rhs1, ret)) :
    (∀ x : τ F, (operator_assign h F lambda_validator rhs o).result = .ok x →
      (operator_assign h F lambda_validator rhs o).calls
        = [.invoke_validators F rhs1, .notify F, .invoke_observers F]) ∧
    (∀ (accepted : τ F) (o1 o3 : Owner ι τ X) (e : E),
      h.invoke_validators F .const_ref o rhs1 = (.ok accepted, o1) →
      h.notify F (o1.store F accepted) = (.error e, o3) →
      (operator_assign h F lambda_validator rhs o).result = .error e ∧
      (operator_assign h F lambda_validator rhs o).calls
        = [.invoke_validators F rhs1, .notify F] ∧
      (operator_assign h F lambda_validator rhs o).calls.countP (Call.isObserve F) = 0 ∧
      (operator_assign h F lambda_validator rhs o).owner = o3 ∧
      ((∀ s : Owner ι τ X, (h.notify F s).2.read F = s.read F) →
        (operator_assign h F lambda_validator rhs o).owner.read F = accepted)) := by
  rw [operator_assign_pre_ok h F lambda_validator rhs rhs1 ret o hpre]
  refine ⟨?_, ?_⟩
  · intro x hok
    rcases hv : h.invoke_validators F .const_ref o rhs1 with ⟨rv, o1⟩
    cases rv with
    | error e =>
      rw [assign_validate_error h F rhs1 o o1 e hv] at hok
      cases hok
    | ok accepted =>
      rcases hn : h.notify F (o1.store F accepted) with ⟨rn, o3⟩
      cases rn with
      | error e =>
        rw [assign_notify_error h F rhs1 accepted o o1 o3 e hv hn] at hok
        cases hok
      | ok u =>
        rcases ho : h.invoke_observers F o3 with ⟨ro, o4⟩
        cases ro with
        | error e =>
          rw [assign_observe_error h F rhs1 accepted o o1 o3 o4 u e hv hn ho] at hok
          cases hok
        | ok u2 =>
          rw [assign_ok h F rhs1 accepted o o1 o3 o4 u u2 hv hn ho]
  · intro accepted o1 o3 e hv hn
    rw [assign_notify_error h F rhs1 accepted o o1 o3 e hv hn]
    refine ⟨rfl, rfl, by simp [Call.isObserve], rfl, ?_⟩
    intro hframe
    have h1 := hframe (o1.store F accepted)
    rw [hn, Owner.read_store_same] at h1
    exact h1

/-- C17 at the owner with default hooks, and at the owner whose `notify`
throws: there `F = 7` stores `7` and does not reach `invoke_observers`. -/
theorem C17_hook_order_witness :
    (operator_assign (MAKE_OBSERVED : Hooks Unit (fun _ => Int) Unit String) ()
        xtl_identity 7 five).calls
      = [.invoke_validators () 7, .notify (), .invoke_observers ()] ∧
    (operator_assign failingNotifyOwner.toHooks () xtl_identity 7 five).calls
      = [.invoke_validators () 7, .notify ()] ∧
    (operator_assign failingNotifyOwner.toHooks () xtl_identity 7 five).owner.read () = 7 := by
  have h1 := C17_hook_order (MAKE_OBSERVED : Hooks Unit (fun _ => Int) Unit String) ()
    xtl_identity 7 7 7 five rfl
  have h2 := C17_hook_order failingNotifyOwner.toHooks () xtl_identity 7 7 7 five rfl
  have h3 := h2.2 7 five (five.store () 7) "notify" rfl rfl
  exact ⟨h1.1 7 rfl, h3.2.1, h3.2.2.2.2 (fun _ => rfl)⟩

/-- C18. For an owner that starts at the address `base` and a field `D` stored
at `base + offset(D)`, `owner()` computed from the address of the field is
`base`; so `assign` run in that field calls the hooks on, and stores into, the
owner at `base`, and the fluent call moves out the owner at `base`. -/
theorem C18_owner_recovery
    {ι : Type} {τ : ι → Type} {X E : Type} [DecidableEq ι]
    (h : Hooks ι τ X E) (offset : ι → Nat) (mem : Memory ι τ X) (D : ι) (base : Nat)
    (o : Owner ι τ X) (v : τ D) (hmem : mem base = some o) :
    owner (offset D) (member_address offset base D) = some base ∧
    owner (offset D) (base + offset D) = some base ∧
    assign_at h offset mem D (member_address offset base D) v = some (assign h D v o) ∧
    operator_call_arg_at offset mem D (member_address offset base D) v
      = some (operator_call_arg D v o) := by
  have hown : owner (offset D) (base + offset D) = some base := by
    unfold owner
    rw [if_pos (Nat.le_add_left _ _), Nat.add_sub_cancel]
  refine ⟨hown, hown, ?_, ?_⟩
  · unfold assign_at member_address
    rw [hown]
    simp only [hmem, Option.map_some']
  · unfold operator_call_arg_at member_address
    rw [hown]
    simp only [hmem, Option.map_some']

/-- C18 at the owner at address `4096` whose second field is at offset `8`. -/
theorem C18_owner_recovery_witness :
    owner (twoInts true) 4104 = some 4096 ∧
    (operator_call_arg_at twoInts oneOwner true 4104 (9 : Int)).map
        (fun r => r.returned.read true) = some 9 := by
  have h := C18_owner_recovery (MAKE_OBSERVED : Hooks Bool (fun _ => Int) Unit String)
    twoInts oneOwner true 4096 zeros (9 : Int) rfl
  refine ⟨h.1, ?_⟩
  have h4 : operator_call_arg_at twoInts oneOwner true 4104 (9 : Int)
      = some (operator_call_arg true 9 zeros) := h.2.2.2
  rw [h4]
  rfl

end claims_order

end xp
